import Mathlib

/-!
Verification of the Robot-Driver-Automation repository.

This file gives a shallow embedding of the repository's core code and proves
the specification's claims about it.  The embedding covers:

* `get_page_context` (Page Inspector, `ai_robot_driver.py` lines 37-95),
* `execute_action` (Action Executor, lines 151-226),
* the response fence-stripping of the Action Planner (lines 273-279),
* `execute_goal` (Loop Controller, lines 228-319),
* `search_product_price` (`robot_driver.py`) and `execute_task` (`api.py`),
  to the depth the claims about them need.

External collaborators (the Playwright page, the Gemini completion provider,
Python's `json.loads`) are modelled at the granularity the code observes them:

* a live page is a `Page`: a list of elements in document order plus boolean
  oracles for the operations that can fail (`navFails`, per-element
  `interactFails` / `extractFails`, `clickSelectorOk`, `waitFinds`,
  `raisesOnInspect`);
* `query_selector(sel)` returns the first element in document order matching
  `sel`, and `query_selector_all(sel)` returns all of them in document order
  (standard CSS-selector-list semantics);
* the completion provider together with the JSON parse step is, for the loop
  controller, an oracle `Nat → IterEvent` giving for each iteration either a
  parse failure, a parsed `PlannedAction`, or a raised exception — faithful
  because the inspector's snapshot feeds only the provider prompt and the
  provider's output is unconstrained;
* Python strings are modelled as `List Char` (Python strings are sequences of
  code points) where character-level manipulation matters, with `String`
  fields at the boundary; `str.strip`, `str.split`, substring `in`, slicing
  and `int()` are embedded below as `pyStrip`, `pySplit`, `containsSeq`,
  `List.take` and `strToNat`.
-/

/-! ### Python string primitives -/

/-- Whitespace characters removed by Python `str.strip()` (the ASCII ones the
code can encounter in provider responses). -/
def isPySpace (c : Char) : Bool :=
  c == ' ' || c == '\t' || c == '\n' || c == '\r'

/-- Python `s.strip()`: remove leading and trailing whitespace. -/
def pyStrip (s : List Char) : List Char :=
  ((s.dropWhile isPySpace).reverse.dropWhile isPySpace).reverse

/-- Does the list start with the given pattern?  (`startsWithSeq s p` means
`p` is a prefix of `s`.) -/
def startsWithSeq : List Char → List Char → Bool
  | _, [] => true
  | [], _ :: _ => false
  | a :: s, b :: p => a == b && startsWithSeq s p

/-- Python `sep in s`: does `sep` occur as a contiguous substring of `s`? -/
def containsSeq (sep : List Char) : List Char → Bool
  | [] => sep.isEmpty
  | c :: rest => startsWithSeq (c :: rest) sep || containsSeq sep rest

/-- Worker for `pySplit`.  `fuel` only ensures termination: every recursive
call strictly shrinks the scanned list, so any `fuel ≥ s.length` gives the
same answer (`pySplitGo_fuel`). -/
def pySplitGo (sep : List Char) : Nat → List Char → List Char → List (List Char)
  | 0, s, acc => [acc.reverse ++ s]
  | fuel + 1, s, acc =>
    match s with
    | [] => [acc.reverse]
    | c :: rest =>
      if startsWithSeq (c :: rest) sep then
        acc.reverse :: pySplitGo sep fuel ((c :: rest).drop sep.length) []
      else
        pySplitGo sep fuel rest (c :: acc)

/-- Python `s.split(sep)` for a non-empty separator: the pieces of `s`
between non-overlapping left-to-right occurrences of `sep`. -/
def pySplit (sep s : List Char) : List (List Char) :=
  if sep.isEmpty then [s] else pySplitGo sep s.length s []

/-- Python `s.isdigit()` restricted to ASCII digit strings (the only ones
`int()` subsequently accepts): non-empty and all decimal digits. -/
def isPyDigits (s : List Char) : Bool :=
  !s.isEmpty && s.all Char.isDigit

/-- Python `int(s)` on a decimal digit string. -/
def strToNat (s : List Char) : Nat :=
  s.foldl (fun n c => n * 10 + (c.toNat - 48)) 0

/-! ### Data model -/

/-- One DOM element of the live page, in document order, as the code observes
it.  `interactFails` models `fill`/`press`/`click` on this element raising;
`extractFails` models one of the attribute extractions in the inspector's
per-element `try` block raising. -/
structure PageElement where
  tag : String
  typeAttr : Option String
  nameAttr : Option String
  idAttr : Option String
  roleAttr : Option String
  textContent : List Char
  ariaLabel : Option String
  placeholder : Option String
  interactFails : Bool
  extractFails : Bool
deriving Repr, DecidableEq

/-- The live page handle (`self.page`) together with the failure oracles of
the browser collaborator. -/
structure Page where
  url : String
  titleVal : String
  elements : List PageElement
  navFails : Bool
  clickSelectorOk : String → Bool
  waitFinds : String → Bool
  raisesOnInspect : Bool

/-- One entry of the context's `"elements"` list built by `get_page_context`
(`element_info` in the source). -/
structure ElementInfo where
  index : Nat
  tag : String
  type : Option String
  role : String
  text : List Char
  aria_label : Option String
  placeholder : Option String
  id : Option String
  name : Option String
deriving Repr, DecidableEq

/-- The dictionary returned by `get_page_context`.  A missing key is `none`:
the `{}` returned when `self.page` is `None` has `url := none`, and the
exception fallback `{"url": ..., "elements": []}` has `title := none`. -/
structure PageContext where
  url : Option String
  title : Option String
  elements : List ElementInfo
deriving Repr, DecidableEq

/-- The action dictionary parsed from the provider's JSON response.  The code
reads the keys with `.get(key, "")` (or compares `.get("action")` against a
literal, where a missing key compares unequal), so a missing key is modelled
as `""`. -/
structure PlannedAction where
  action : String
  target : String
  value : String
  reasoning : String
deriving Repr, DecidableEq

/-- Observable outcome of `execute_action`: the returned boolean plus which
page interactions took place. -/
structure ExecOutcome where
  success : Bool
  clickedIdx : Option Nat := none
  filledIdx : Option Nat := none
  filledValue : Option String := none
  pressedEnter : Bool := false
  navigatedTo : Option String := none
deriving Repr, DecidableEq

/-- The `result` dictionary accumulated by `execute_goal`. -/
structure LoopResult where
  success : Bool
  goal : String
  steps_taken : Nat
  message : String
deriving Repr, DecidableEq

/-- What one loop iteration observes from the completion provider after the
fence-stripping and `json.loads` steps: a JSON parse failure (recoverable,
the iteration is skipped), a parsed action, or an exception raised by the
provider call (unexpected, caught only by the controller's outer handler). -/
inductive IterEvent where
  | parseFail
  | planned (a : PlannedAction)
  | raised (msg : String)
deriving Repr, DecidableEq

/-- An event that neither ends the loop via `done` nor raises. -/
def benign : IterEvent → Bool
  | IterEvent.parseFail => true
  | IterEvent.planned a => a.action != "done"
  | IterEvent.raised _ => false

/-- Loop state threaded through the iterations: the `result` dictionary plus
the trace of actions handed to `execute_action`. -/
structure RunState where
  result : LoopResult
  executed : List PlannedAction
deriving Repr, DecidableEq

/-- Outcome of the initialization phase (`async_playwright().start()`,
`chromium.launch`, `new_page`, `set_default_timeout`).  `failBeforeBrowser`
models `launch` itself raising, when `self.browser` is still `None`;
`failAfterBrowser` models a later initialization step raising, when the
browser session has already been acquired. -/
inductive InitResult where
  | ok
  | failBeforeBrowser (msg : String)
  | failAfterBrowser (msg : String)
deriving Repr, DecidableEq

/-- Was the browser session acquired during initialization? -/
def browserAcquired : InitResult → Bool
  | InitResult.failBeforeBrowser _ => false
  | _ => true

/-- Full observable outcome of one `execute_goal` run: the returned `result`
dictionary, the trace of actions passed to the executor, and how many times
the `finally` block called `browser.close()`. -/
structure GoalRun where
  result : LoopResult
  executed : List PlannedAction
  closeCalls : Nat
deriving Repr, DecidableEq

/-! ### Page Inspector (`get_page_context`, ai_robot_driver.py 37-95) -/

/-- CSS selector list of the snapshot query
`'button, a, input, select, textarea, [role="button"], [role="link"]'`. -/
def snapshotQueryMatches (e : PageElement) : Bool :=
  e.tag == "button" || e.tag == "a" || e.tag == "input" || e.tag == "select"
    || e.tag == "textarea" || e.roleAttr == some "button" || e.roleAttr == some "link"

/-- The `element_info` dictionary built for one retained element.
`role = get_attribute('role') or tag.lower()` (Python `or` also replaces an
empty string); `text = inner_text if tag != 'INPUT' else ''`, then
`text.strip()[:50] if text else ""`. -/
def mkInfo (idx : Nat) (e : PageElement) : ElementInfo :=
  { index := idx
    tag := e.tag
    type := e.typeAttr
    role := match e.roleAttr with
      | some r => if r == "" then e.tag else r
      | none => e.tag
    text := if e.tag == "input" then []
      else if e.textContent.isEmpty then []
      else (pyStrip e.textContent).take 50
    aria_label := e.ariaLabel
    placeholder := e.placeholder
    id := e.idAttr
    name := e.nameAttr }

/-- The `for i, elem in enumerate(elements[:20])` loop body: skip elements
whose extraction raises, skip `INPUT` elements with `type == 'submit'`, and
give each retained element its index in the filtered list
(`len(context["elements"])`). -/
def buildElements : List PageElement → Nat → List ElementInfo
  | [], _ => []
  | e :: rest, idx =>
    if e.extractFails then buildElements rest idx
    else if e.tag == "input" && e.typeAttr == some "submit" then buildElements rest idx
    else mkInfo idx e :: buildElements rest (idx + 1)

/-- `get_page_context`: `{}` when `self.page` is `None` (lines 44-45); the
`{"url": self.page.url, "elements": []}` fallback when the snapshot `try`
body raises (lines 93-95); otherwise the full context with the query result
capped at the first 20 elements before filtering. -/
def get_page_context : Option Page → PageContext
  | none => { url := none, title := none, elements := [] }
  | some pg =>
    if pg.raisesOnInspect then
      { url := some pg.url, title := none, elements := [] }
    else
      { url := some pg.url
        title := some pg.titleVal
        elements := buildElements ((pg.elements.filter snapshotQueryMatches).take 20) 0 }

/-! ### Action Executor (`execute_action`, ai_robot_driver.py 151-226) -/

/-- CSS selector list of the click re-query
`'button, a, input[type="submit"], [role="button"]'`. -/
def clickQueryMatches (e : PageElement) : Bool :=
  e.tag == "button" || e.tag == "a"
    || (e.tag == "input" && e.typeAttr == some "submit")
    || e.roleAttr == some "button"

/-- CSS selector list of the type-action query
`'input[name="field-keywords"], input[id*="search"], input[type="search"],
input[type="text"]'`.  `[id*="search"]` is a substring match on the `id`
attribute; an element matches the list when it matches any alternative. -/
def matchesTypeQuery (e : PageElement) : Bool :=
  (e.tag == "input" && e.nameAttr == some "field-keywords")
    || (e.tag == "input" && containsSeq "search".data (e.idAttr.getD "").data)
    || (e.tag == "input" && e.typeAttr == some "search")
    || (e.tag == "input" && e.typeAttr == some "text")

/-- `query_selector`: the first element in document order matching the
predicate, with its document position. -/
def firstMatchIdx : List PageElement → (PageElement → Bool) → Nat → Option (Nat × PageElement)
  | [], _, _ => none
  | e :: rest, p, i => if p e then some (i, e) else firstMatchIdx rest p (i + 1)

/-- `execute_action`: dispatch on `action.get("action")`, mirroring the
`if`/`elif` chain.  All exceptions inside the body (navigation, click, the
type branch's inner `try`, timeouts) are caught and turned into `False`, so
the embedded function is total. -/
def execute_action (page : Page) (action : PlannedAction) : ExecOutcome :=
  match action.action with
  | "navigate" =>
    if page.navFails then { success := false }
    else { success := true, navigatedTo := some action.target }
  | "click" =>
    if isPyDigits action.target.data then
      let elements := page.elements.filter clickQueryMatches
      let idx := strToNat action.target.data
      if h : idx < elements.length then
        if (elements.get ⟨idx, h⟩).interactFails then { success := false }
        else { success := true, clickedIdx := some idx }
      else { success := false }
    else
      if page.clickSelectorOk action.target then { success := true }
      else { success := false }
  | "type" =>
    match firstMatchIdx page.elements matchesTypeQuery 0 with
    | none => { success := false }
    | some (i, e) =>
      if e.interactFails then { success := false }
      else
        { success := true
          filledIdx := some i
          filledValue := some action.value
          pressedEnter := true }
  | "wait" =>
    if page.waitFinds action.target then { success := true }
    else { success := false }
  | "done" => { success := true }
  | _ => { success := false }

/-! ### Action Planner response handling (ai_robot_driver.py 273-279) -/

/-- The fence-stripping step applied to `response.text` before `json.loads`:
strip, then if `"```json"` occurs take what lies between the first
`"```json"` and the next `"```"`, else if `"```"` occurs take what lies
between the first two `"```"`, and strip the extract. -/
def extract_response (text : List Char) : List Char :=
  let t := pyStrip text
  if containsSeq "```json".data t then
    pyStrip ((pySplit "```".data ((pySplit "```json".data t).getD 1 [])).getD 0 [])
  else if containsSeq "```".data t then
    pyStrip ((pySplit "```".data ((pySplit "```".data t).getD 1 [])).getD 0 [])
  else t

/-- Skip JSON whitespace. -/
def skipWs : List Char → List Char
  | [] => []
  | c :: rest => if isPySpace c then skipWs rest else c :: rest

/-- One escape character inside a JSON string literal. -/
def unescChar (c : Char) : Char :=
  if c == 'n' then '\n' else if c == 't' then '\t' else if c == 'r' then '\r' else c

/-- Parse the remainder of a JSON string literal (the opening quote already
consumed): the content and the rest after the closing quote. -/
def parseJsonString : List Char → Option (List Char × List Char)
  | [] => none
  | '\\' :: c :: rest =>
    (parseJsonString rest).map (fun r => (unescChar c :: r.1, r.2))
  | '"' :: rest => some ([], rest)
  | c :: rest => (parseJsonString rest).map (fun r => (c :: r.1, r.2))

/-- Parse `"key" : "value"` members up to and including the closing `}`. -/
def parseMembers : Nat → List Char → Option (List (String × String) × List Char)
  | 0, _ => none
  | fuel + 1, s =>
    match skipWs s with
    | '"' :: r0 =>
      match parseJsonString r0 with
      | none => none
      | some (key, r1) =>
        match skipWs r1 with
        | ':' :: r2 =>
          match skipWs r2 with
          | '"' :: r3 =>
            match parseJsonString r3 with
            | none => none
            | some (val, r4) =>
              match skipWs r4 with
              | ',' :: r5 =>
                match parseMembers fuel r5 with
                | some (ps, r6) => some ((⟨key⟩, ⟨val⟩) :: ps, r6)
                | none => none
              | '}' :: r5 => some ([(⟨key⟩, ⟨val⟩)], r5)
              | _ => none
          | _ => none
        | _ => none
    | _ => none

/-- Modelled from the collaborator: Python `json.loads`, restricted to the
flat JSON objects with string values that the planner prompt requests — a
whole-input parse of `{ "k": "v", ... }` with surrounding whitespace. -/
def json_loads_flat (s : List Char) : Option (List (String × String)) :=
  match skipWs s with
  | '{' :: rest =>
    match skipWs rest with
    | '}' :: r2 => if (skipWs r2).isEmpty then some [] else none
    | _ =>
      match parseMembers (s.length + 1) rest with
      | some (ps, r) => if (skipWs r).isEmpty then some ps else none
      | none => none
  | _ => none

/-- Python `dict` lookup: the last binding of a duplicated key wins. -/
def dictGet (d : List (String × String)) (k : String) : Option String :=
  (d.reverse.lookup k)

/-- The parse of an extracted response into the action dictionary as the loop
reads it: `action.get("action")`, `action.get("target", "")`,
`action.get("value", "")`, `action.get("reasoning", "")`, with a missing key
behaving as `""`. -/
def parse_planned (s : List Char) : Option PlannedAction :=
  (json_loads_flat s).map (fun d =>
    { action := (dictGet d "action").getD ""
      target := (dictGet d "target").getD ""
      value := (dictGet d "value").getD ""
      reasoning := (dictGet d "reasoning").getD "" })

/-! ### Loop Controller (`execute_goal`, ai_robot_driver.py 228-319) -/

/-- The `for step in range(max_steps)` loop, by recursion on the remaining
iterations (`fuel`), carrying the current `step` index and the loop state.
Returns the final state and, in the second component, the message of an
exception that escaped the loop body (caught by the controller's `except`).
Per iteration: set `steps_taken = step + 1`; on a provider exception the
loop aborts with that message; on a JSON parse failure `continue`; on a
`done` action break with success; otherwise hand the action to
`execute_action` (whose boolean does not influence control flow) and
continue. -/
def runSteps (env : Nat → IterEvent) : Nat → Nat → RunState → RunState × Option String
  | _, 0, st => (st, none)
  | step, fuel + 1, st =>
    let st1 : RunState := { st with result := { st.result with steps_taken := step + 1 } }
    match env step with
    | IterEvent.raised msg => (st1, some msg)
    | IterEvent.parseFail => runSteps env (step + 1) fuel st1
    | IterEvent.planned a =>
      if a.action == "done" then
        ({ st1 with result := { st1.result with
            success := true
            message := "Goal completed: " ++ a.reasoning } }, none)
      else
        runSteps env (step + 1) fuel { st1 with executed := st1.executed ++ [a] }

/-- `execute_goal`: initialize the result dictionary, acquire the browser
session, run the loop, set the exhaustion message when the loop ended
without success, map an escaped exception to `"Error: ..."`, and in the
`finally` block call `browser.close()` exactly when the browser was
acquired (`if self.browser:`). -/
def execute_goal (goal : String) (init : InitResult) (env : Nat → IterEvent)
    (maxSteps : Nat) : GoalRun :=
  let base : LoopResult := { success := false, goal := goal, steps_taken := 0, message := "" }
  match init with
  | InitResult.failBeforeBrowser msg =>
    { result := { base with message := "Error: " ++ msg }, executed := [], closeCalls := 0 }
  | InitResult.failAfterBrowser msg =>
    { result := { base with message := "Error: " ++ msg }, executed := [], closeCalls := 1 }
  | InitResult.ok =>
    match runSteps env 0 maxSteps { result := base, executed := [] } with
    | (st, some msg) =>
      { result := { st.result with message := "Error: " ++ msg }
        executed := st.executed, closeCalls := 1 }
    | (st, none) =>
      { result :=
          if st.result.success then st.result
          else { st.result with message :=
            "Reached maximum steps (" ++ toString maxSteps ++ ") without completing goal" }
        executed := st.executed, closeCalls := 1 }

/-- The planned (non-`done`) actions the loop hands to the executor over
`fuel` iterations starting at iteration `s`, in order. -/
def plannedActs (env : Nat → IterEvent) : Nat → Nat → List PlannedAction
  | _, 0 => []
  | s, fuel + 1 =>
    (match env s with
     | IterEvent.planned a => if a.action == "done" then [] else [a]
     | _ => []) ++ plannedActs env (s + 1) fuel

/-! ### Fixed-script search (`search_product_price`, robot_driver.py) and the
HTTP `/execute` endpoint (`execute_task`, api.py) -/

/-- How the external world answers the fixed script's navigate → search →
extract sequence (the branching the code distinguishes). -/
inductive SearchOutcome where
  | noSearchBox
  | noResults
  | priced (title : String) (price : String)
  | noPrice (title : String)
  | timeoutErr
  | otherErr (msg : String)
deriving Repr, DecidableEq

/-- The result dictionary of `search_product_price`. -/
structure SearchResult where
  success : Bool
  message : String
  product : String
  price : Option String
deriving Repr, DecidableEq

/-- Python `s[:50]` on a `String`. -/
def pyTake50 (s : String) : String := ⟨s.data.take 50⟩

/-- `search_product_price`: the result dictionary is initialized with
`"product": product_name` and that key is never reassigned on any path; the
other fields follow the branch taken. -/
def search_product_price (product_name : String) (w : SearchOutcome) : SearchResult :=
  match w with
  | SearchOutcome.noSearchBox =>
    { success := false, message := "Could not find search box on Amazon"
      product := product_name, price := none }
  | SearchOutcome.noResults =>
    { success := false, message := "No search results found"
      product := product_name, price := none }
  | SearchOutcome.priced title price =>
    { success := true
      message := "Success! Product '" ++ pyTake50 title ++ "...' found"
      product := product_name, price := some ⟨pyStrip price.data⟩ }
  | SearchOutcome.noPrice _ =>
    { success := false, message := "Product found but price not available"
      product := product_name, price := none }
  | SearchOutcome.timeoutErr =>
    { success := false
      message := "Timeout error: Page took too long to load or element not found"
      product := product_name, price := none }
  | SearchOutcome.otherErr msg =>
    { success := false, message := "Error occurred: " ++ msg
      product := product_name, price := none }

/-- Execution mode of a request (`Literal["basic", "ai"]`). -/
inductive Mode where
  | basic
  | ai
deriving Repr, DecidableEq

/-- The validated `TaskRequest` body. -/
structure TaskRequest where
  message : String
  mode : Mode
  max_steps : Nat
deriving Repr, DecidableEq

/-- The `TaskResponse` body. -/
structure TaskResponse where
  success : Bool
  message : String
  mode : String
  steps_taken : Option Nat
  price : Option String
  product : Option String
deriving Repr, DecidableEq

/-- Either a `TaskResponse` or an `HTTPException`. -/
inductive ApiResult where
  | ok (resp : TaskResponse)
  | httpError (status : Nat) (detail : String)
deriving Repr, DecidableEq

/-- The `product` field of a successful response. -/
def ApiResult.productField : ApiResult → Option String
  | ApiResult.ok r => r.product
  | ApiResult.httpError _ _ => none

/-- Observable outcome of one `/execute` request: the HTTP-level result plus
which collaborator was invoked with which arguments. -/
structure ApiCallTrace where
  response : ApiResult
  searchCalledWith : Option String
  aiCalledWith : Option (String × Nat)
deriving Repr, DecidableEq

/-- `execute_task` (api.py 188-246): basic mode always calls
`search_product_price("wireless mouse")` — the request's `message` is not
consulted — and maps the result dictionary onto a `TaskResponse`; ai mode
requires the configured key and runs `execute_goal(request.message,
request.max_steps)`. -/
def execute_task (geminiConfigured : Bool) (req : TaskRequest) (w : SearchOutcome)
    (init : InitResult) (env : Nat → IterEvent) : ApiCallTrace :=
  match req.mode with
  | Mode.basic =>
    let result := search_product_price "wireless mouse" w
    { response := ApiResult.ok
        { success := result.success
          message := result.message
          mode := "basic"
          steps_taken := none
          price := result.price
          product := some result.product }
      searchCalledWith := some "wireless mouse"
      aiCalledWith := none }
  | Mode.ai =>
    if geminiConfigured then
      let result := (execute_goal req.message init env req.max_steps).result
      { response := ApiResult.ok
          { success := result.success
            message := result.message
            mode := "ai"
            steps_taken := some result.steps_taken
            price := none
            product := none }
        searchCalledWith := none
        aiCalledWith := some (req.message, req.max_steps) }
    else
      { response := ApiResult.httpError 503
          "AI mode not available: GEMINI_API_KEY not configured"
        searchCalledWith := none
        aiCalledWith := none }

/-! ### Helper lemmas -/

/-- A snapshot entry satisfying claim C5: not an `input` of type `submit`,
and text at most 50 characters. -/
def goodInfo (e : ElementInfo) : Bool :=
  !(e.tag == "input" && e.type == some "submit") && decide (e.text.length ≤ 50)

theorem buildElements_length_le (l : List PageElement) (idx : Nat) :
    (buildElements l idx).length ≤ l.length := by
  induction l generalizing idx with
  | nil => simp [buildElements]
  | cons e rest ih =>
    simp only [buildElements]
    split
    · exact Nat.le_succ_of_le (ih idx)
    · split
      · exact Nat.le_succ_of_le (ih idx)
      · exact Nat.succ_le_succ (ih (idx + 1))

theorem mkInfo_good (idx : Nat) (e : PageElement)
    (h : (e.tag == "input" && e.typeAttr == some "submit") = false) :
    goodInfo (mkInfo idx e) = true := by
  simp only [goodInfo, mkInfo, h, Bool.not_false, Bool.true_and, decide_eq_true_eq]
  split
  · simp
  · split
    · simp
    · simp [List.length_take]

theorem buildElements_all_good (l : List PageElement) (idx : Nat) :
    (buildElements l idx).all goodInfo = true := by
  induction l generalizing idx with
  | nil => rfl
  | cons e rest ih =>
    simp only [buildElements]
    split
    · exact ih idx
    · rename_i hex
      split
      · exact ih idx
      · rename_i hsub
        simp only [List.all_cons, Bool.and_eq_true]
        exact ⟨mkInfo_good idx e (by simpa using hsub), ih (idx + 1)⟩

/-! ### Claim theorems -/

/-- C5: every snapshot produced by the Page Inspector has at most 20
elements, none of them an `input` of type `submit`, and every retained
element's text has length at most 50 characters. -/
theorem snapshot_bounded (p : Option Page) :
    (get_page_context p).elements.length ≤ 20 ∧
    (get_page_context p).elements.all goodInfo = true := by
  cases p with
  | none => exact ⟨by simp [get_page_context], rfl⟩
  | some pg =>
    by_cases h : pg.raisesOnInspect = true
    · simp [get_page_context, h]
    · simp only [get_page_context, h, if_false, Bool.false_eq_true]
      refine ⟨?_, buildElements_all_good _ _⟩
      calc (buildElements ((pg.elements.filter snapshotQueryMatches).take 20) 0).length
          ≤ ((pg.elements.filter snapshotQueryMatches).take 20).length :=
            buildElements_length_le _ _
        _ ≤ 20 := by simp [List.length_take]

/-- C2: whenever the browser session was acquired during initialization,
`execute_goal` releases it exactly once (`closeCalls = 1`), on every exit
path — Completed, Exhausted, or Failed, including an exception raised
mid-iteration. -/
theorem session_released_once (goal : String) (init : InitResult)
    (env : Nat → IterEvent) (maxSteps : Nat)
    (hacq : browserAcquired init = true) :
    (execute_goal goal init env maxSteps).closeCalls = 1 := by
  cases init with
  | ok =>
    rcases h : runSteps env 0 maxSteps
        { result := { success := false, goal := goal, steps_taken := 0, message := "" }
          executed := [] } with ⟨st, exc⟩
    cases exc <;> simp [execute_goal, h]
  | failBeforeBrowser msg => simp [browserAcquired] at hacq
  | failAfterBrowser msg => rfl

/-- Witness for C2 at a concrete run. -/
theorem session_released_once_witness :
    browserAcquired InitResult.ok = true ∧
    (execute_goal "g" InitResult.ok (fun _ => IterEvent.parseFail) 2).closeCalls = 1 :=
  ⟨rfl, session_released_once "g" InitResult.ok (fun _ => IterEvent.parseFail) 2 rfl⟩

/-- C7: an iteration whose provider response fails to parse as JSON is
skipped without executing any action and without raising: the loop state is
unchanged except that the iteration consumed one unit of the normal step
count (`steps_taken = n + 1`, one unit of fuel), and the loop proceeds to
iteration `n + 1`. -/
theorem parse_failure_skips_iteration (env : Nat → IterEvent) (n : Nat)
    (h : env n = IterEvent.parseFail) (fuel : Nat) (st : RunState) :
    runSteps env n (fuel + 1) st =
      runSteps env (n + 1) fuel
        { st with result := { st.result with steps_taken := n + 1 } } := by
  simp [runSteps, h]

/-- Witness for C7 at a concrete parse failure. -/
theorem parse_failure_skips_iteration_witness :
    runSteps (fun _ => IterEvent.parseFail) 0 1
        { result := { success := false, goal := "g", steps_taken := 0, message := "" }
          executed := [] } =
      runSteps (fun _ => IterEvent.parseFail) 1 0
        { result := { success := false, goal := "g", steps_taken := 1, message := "" }
          executed := [] } :=
  parse_failure_skips_iteration (fun _ => IterEvent.parseFail) 0 rfl 0
    { result := { success := false, goal := "g", steps_taken := 0, message := "" }
      executed := [] }

/-- C9 counterexample: when the page object is absent (`self.page` is
`None`) — a run in which context extraction fails entirely — the inspector
returns the empty dictionary `{}`, which contains no page URL at all,
contradicting the claim that every total-failure snapshot carries the page
URL. -/
theorem inspector_none_page_has_no_url :
    (get_page_context none).url = none ∧ (get_page_context none).elements = [] :=
  ⟨rfl, rfl⟩

/-- C9 (amended): when a page object exists but context extraction raises,
the inspector returns — without raising — a snapshot with the page URL and
an empty element list; when the page object is absent it returns — without
raising — an entirely empty context with no URL. -/
theorem inspector_total_failure_fallback (pg : Page)
    (h : pg.raisesOnInspect = true) :
    get_page_context (some pg) = { url := some pg.url, title := none, elements := [] } ∧
    get_page_context none = { url := none, title := none, elements := [] } := by
  refine ⟨?_, rfl⟩
  simp [get_page_context, h]

/-- Witness for C9's amended theorem at a concrete broken page. -/
theorem inspector_total_failure_fallback_witness :
    get_page_context (some
        { url := "https://example.org", titleVal := "t", elements := [],
          navFails := false, clickSelectorOk := fun _ => false,
          waitFinds := fun _ => false, raisesOnInspect := true }) =
      { url := some "https://example.org", title := none, elements := [] } :=
  (inspector_total_failure_fallback _ rfl).1

/-- C10: the `/execute` endpoint in basic mode ignores the request's
`message`: two basic-mode requests differing only in `message` make the
same call `search_product_price("wireless mouse")` and get the same
response, whose `product` field is `"wireless mouse"`. -/
theorem basic_mode_ignores_message (geminiConfigured : Bool) (m1 m2 : String)
    (s : Nat) (w : SearchOutcome) (init : InitResult) (env : Nat → IterEvent) :
    execute_task geminiConfigured { message := m1, mode := Mode.basic, max_steps := s } w init env =
      execute_task geminiConfigured { message := m2, mode := Mode.basic, max_steps := s } w init env ∧
    (execute_task geminiConfigured { message := m1, mode := Mode.basic, max_steps := s }
        w init env).searchCalledWith = some "wireless mouse" ∧
    (execute_task geminiConfigured { message := m1, mode := Mode.basic, max_steps := s }
        w init env).response.productField = some "wireless mouse" := by
  refine ⟨rfl, rfl, ?_⟩
  cases w <;> rfl

theorem runSteps_benign (env : Nat → IterEvent) (hb : ∀ j, benign (env j) = true) :
    ∀ fuel s st, runSteps env s fuel st =
      ({ result := { st.result with
            steps_taken := if fuel = 0 then st.result.steps_taken else s + fuel }
         executed := st.executed ++ plannedActs env s fuel }, none) := by
  intro fuel
  induction fuel with
  | zero => intro s st; simp [runSteps, plannedActs]
  | succ n ih =>
    intro s st
    have hbs := hb s
    cases henv : env s with
    | raised m => simp [benign, henv] at hbs
    | parseFail =>
      simp only [runSteps, henv]
      rw [ih (s + 1)]
      simp only [plannedActs, henv, List.nil_append, Nat.succ_ne_zero, if_false]
      rcases Nat.eq_zero_or_pos n with hn | hn
      · subst hn; simp [plannedActs]
      · have hne : n ≠ 0 := Nat.pos_iff_ne_zero.mp hn
        simp [hne, Nat.add_assoc, Nat.add_comm 1 n]
    | planned a =>
      rw [henv] at hbs
      simp only [benign, bne_iff_ne, ne_eq] at hbs
      have hdone : (a.action == "done") = false := by simp [hbs]
      simp only [runSteps, henv, hdone, Bool.false_eq_true, if_false]
      rw [ih (s + 1)]
      simp only [plannedActs, henv, hdone, Bool.false_eq_true, if_false,
        Nat.succ_ne_zero]
      rcases Nat.eq_zero_or_pos n with hn | hn
      · subst hn; simp [plannedActs]
      · have hne : n ≠ 0 := Nat.pos_iff_ne_zero.mp hn
        simp [hne, Nat.add_assoc, Nat.add_comm 1 n]

/-- C1: with `maxSteps = N ≥ 1` and a planner that never returns a `done`
action (and never raises), `execute_goal` runs exactly `N` loop iterations
and ends non-successful with `steps_taken = N` and the message reporting
that the maximum step budget was reached. -/
theorem exhaustion_after_maxSteps (goal : String) (N : Nat) (hN : 1 ≤ N)
    (env : Nat → IterEvent) (hb : ∀ j, benign (env j) = true) :
    (execute_goal goal InitResult.ok env N).result.success = false ∧
    (execute_goal goal InitResult.ok env N).result.steps_taken = N ∧
    (execute_goal goal InitResult.ok env N).result.message =
      "Reached maximum steps (" ++ toString N ++ ") without completing goal" := by
  have hrun := runSteps_benign env hb N 0
    { result := { success := false, goal := goal, steps_taken := 0, message := "" }
      executed := [] }
  have hNne : N ≠ 0 := Nat.pos_iff_ne_zero.mp hN
  simp only [execute_goal, hrun, hNne, if_false, Nat.zero_add]
  simp

/-- Witness for C1 with `N = 3` and a planner always returning a non-`done`
action. -/
theorem exhaustion_after_maxSteps_witness :
    (execute_goal "g" InitResult.ok
        (fun _ => IterEvent.planned
          { action := "wait", target := "body", value := "", reasoning := "r" })
        3).result.success = false ∧
    (execute_goal "g" InitResult.ok
        (fun _ => IterEvent.planned
          { action := "wait", target := "body", value := "", reasoning := "r" })
        3).result.steps_taken = 3 ∧
    (execute_goal "g" InitResult.ok
        (fun _ => IterEvent.planned
          { action := "wait", target := "body", value := "", reasoning := "r" })
        3).result.message =
      "Reached maximum steps (" ++ toString 3 ++ ") without completing goal" :=
  exhaustion_after_maxSteps "g" 3 (by decide)
    (fun _ => IterEvent.planned
      { action := "wait", target := "body", value := "", reasoning := "r" })
    (fun _ => rfl)

theorem runSteps_done (env : Nat → IterEvent) (a : PlannedAction)
    (ha : a.action = "done") :
    ∀ d s fuel st, d < fuel → env (s + d) = IterEvent.planned a →
      (∀ j, j < d → benign (env (s + j)) = true) →
      runSteps env s fuel st =
        ({ result := { st.result with
              steps_taken := s + d + 1
              success := true
              message := "Goal completed: " ++ a.reasoning }
           executed := st.executed ++ plannedActs env s d }, none) := by
  intro d
  induction d with
  | zero =>
    intro s fuel st hlt henv _
    rcases Nat.exists_eq_succ_of_ne_zero (Nat.pos_iff_ne_zero.mp hlt) with ⟨f, rfl⟩
    rw [Nat.add_zero] at henv
    have hdone : (a.action == "done") = true := by simp [ha]
    simp [runSteps, henv, hdone, plannedActs]
  | succ d ih =>
    intro s fuel st hlt henv hpre
    rcases Nat.exists_eq_succ_of_ne_zero
      (Nat.pos_iff_ne_zero.mp (Nat.lt_of_le_of_lt (Nat.zero_le _) hlt)) with ⟨f, rfl⟩
    have hb0 : benign (env s) = true := by
      have := hpre 0 (Nat.succ_pos d)
      simpa using this
    have henv' : env ((s + 1) + d) = IterEvent.planned a := by
      rw [show (s + 1) + d = s + (d + 1) by omega]; exact henv
    have hpre' : ∀ j, j < d → benign (env ((s + 1) + j)) = true := by
      intro j hj
      have := hpre (j + 1) (by omega)
      rw [show (s + 1) + j = s + (j + 1) by omega]; exact this
    have hlt' : d < f := by omega
    cases henvs : env s with
    | raised m => rw [henvs] at hb0; simp [benign] at hb0
    | parseFail =>
      simp only [runSteps, henvs]
      rw [ih (s + 1) f _ hlt' henv' hpre']
      simp only [plannedActs, henvs, List.nil_append]
      have : (s + 1) + d + 1 = s + (d + 1) + 1 := by omega
      rw [this]
    | planned b =>
      rw [henvs] at hb0
      simp only [benign, bne_iff_ne, ne_eq] at hb0
      have hbd : (b.action == "done") = false := by simp [hb0]
      simp only [runSteps, henvs, hbd, Bool.false_eq_true, if_false]
      rw [ih (s + 1) f _ hlt' henv' hpre']
      simp only [plannedActs, henvs, hbd, Bool.false_eq_true, if_false]
      have h1 : (s + 1) + d + 1 = s + (d + 1) + 1 := by omega
      rw [h1]
      simp [List.append_assoc]

/-- C3: if the planner returns a `done` action on iteration `k` (1-indexed,
`k ≤ maxSteps`) and the earlier iterations neither returned `done` nor
raised — their executor outcomes being arbitrary — then `execute_goal` ends
Completed: `success = true`, `steps_taken = k`, the message carries the
planner's reasoning, and the `done` action itself is never handed to the
executor (the executed trace holds exactly the earlier planned actions). -/
theorem completion_on_done (goal : String) (N k : Nat) (hk : 1 ≤ k) (hkN : k ≤ N)
    (env : Nat → IterEvent) (a : PlannedAction) (ha : a.action = "done")
    (henv : env (k - 1) = IterEvent.planned a)
    (hpre : ∀ j, j < k - 1 → benign (env j) = true) :
    (execute_goal goal InitResult.ok env N).result.success = true ∧
    (execute_goal goal InitResult.ok env N).result.steps_taken = k ∧
    (execute_goal goal InitResult.ok env N).result.message =
      "Goal completed: " ++ a.reasoning ∧
    (execute_goal goal InitResult.ok env N).executed = plannedActs env 0 (k - 1) := by
  have hrun := runSteps_done env a ha (k - 1) 0 N
    { result := { success := false, goal := goal, steps_taken := 0, message := "" }
      executed := [] }
    (by omega) (by simpa using henv) (by simpa using hpre)
  simp only [execute_goal, hrun]
  refine ⟨rfl, by simp; omega, rfl, by simp⟩

/-- Witness for C3: the planner returns `done` on iteration 3 of 5, after a
failed-looking click and a parse failure. -/
theorem completion_on_done_witness :
    (execute_goal "g" InitResult.ok
        (fun n => if n == 2 then
            IterEvent.planned { action := "done", target := "", value := "", reasoning := "r" }
          else IterEvent.planned { action := "click", target := "9", value := "", reasoning := "c" })
        5).result.success = true ∧
    (execute_goal "g" InitResult.ok
        (fun n => if n == 2 then
            IterEvent.planned { action := "done", target := "", value := "", reasoning := "r" }
          else IterEvent.planned { action := "click", target := "9", value := "", reasoning := "c" })
        5).result.steps_taken = 3 ∧
    (execute_goal "g" InitResult.ok
        (fun n => if n == 2 then
            IterEvent.planned { action := "done", target := "", value := "", reasoning := "r" }
          else IterEvent.planned { action := "click", target := "9", value := "", reasoning := "c" })
        5).result.message = "Goal completed: " ++ "r" ∧
    (execute_goal "g" InitResult.ok
        (fun n => if n == 2 then
            IterEvent.planned { action := "done", target := "", value := "", reasoning := "r" }
          else IterEvent.planned { action := "click", target := "9", value := "", reasoning := "c" })
        5).executed =
      plannedActs
        (fun n => if n == 2 then
            IterEvent.planned { action := "done", target := "", value := "", reasoning := "r" }
          else IterEvent.planned { action := "click", target := "9", value := "", reasoning := "c" })
        0 (3 - 1) :=
  completion_on_done "g" 5 3 (by decide) (by decide) _
    { action := "done", target := "", value := "", reasoning := "r" } rfl rfl
    (fun j hj => by interval_cases j <;> rfl)

/-- C8: a `click` action whose target is a non-negative integer string out
of range for the freshly re-queried interactive-element set returns failure
without clicking anything and without raising, and the loop controller
treats such an iteration like any failed action: it proceeds to iteration
`n + 1` instead of terminating the run. -/
theorem click_out_of_range_recoverable (page : Page) (a : PlannedAction)
    (ha : a.action = "click") (hd : isPyDigits a.target.data = true)
    (hr : (page.elements.filter clickQueryMatches).length ≤ strToNat a.target.data)
    (env : Nat → IterEvent) (n fuel : Nat) (st : RunState)
    (henv : env n = IterEvent.planned a) :
    (execute_action page a).success = false ∧
    (execute_action page a).clickedIdx = none ∧
    runSteps env n (fuel + 1) st =
      runSteps env (n + 1) fuel
        { st with
          result := { st.result with steps_taken := n + 1 }
          executed := st.executed ++ [a] } := by
  have hnotlt : ¬ strToNat a.target.data <
      (page.elements.filter clickQueryMatches).length := by omega
  have hdone : (a.action == "done") = false := by simp [ha]
  refine ⟨?_, ?_, ?_⟩
  · simp [execute_action, ha, hd, hnotlt]
  · simp [execute_action, ha, hd, hnotlt]
  · simp [runSteps, henv, hdone]

/-- Witness for C8: clicking index 2 on a page whose click re-query matches
nothing. -/
theorem click_out_of_range_recoverable_witness :
    (execute_action
        { url := "u", titleVal := "t", elements := [], navFails := false,
          clickSelectorOk := fun _ => false, waitFinds := fun _ => false,
          raisesOnInspect := false }
        { action := "click", target := "2", value := "", reasoning := "" }).success = false ∧
    runSteps
        (fun _ => IterEvent.planned
          { action := "click", target := "2", value := "", reasoning := "" }) 0 1
        { result := { success := false, goal := "g", steps_taken := 0, message := "" }
          executed := [] } =
      runSteps
        (fun _ => IterEvent.planned
          { action := "click", target := "2", value := "", reasoning := "" }) 1 0
        { result := { success := false, goal := "g", steps_taken := 1, message := "" }
          executed := [{ action := "click", target := "2", value := "", reasoning := "" }] } := by
  have h := click_out_of_range_recoverable
    { url := "u", titleVal := "t", elements := [], navFails := false,
      clickSelectorOk := fun _ => false, waitFinds := fun _ => false,
      raisesOnInspect := false }
    { action := "click", target := "2", value := "", reasoning := "" }
    rfl (by decide) (by decide)
    (fun _ => IterEvent.planned
      { action := "click", target := "2", value := "", reasoning := "" }) 0 0
    { result := { success := false, goal := "g", steps_taken := 0, message := "" }
      executed := [] } rfl
  exact ⟨h.1, h.2.2⟩

/-- A generic text input (matches `input[type="text"]` only). -/
def plainTextInput : PageElement :=
  { tag := "input", typeAttr := some "text", nameAttr := none, idAttr := none,
    roleAttr := none, textContent := [], ariaLabel := none, placeholder := none,
    interactFails := false, extractFails := false }

/-- A named search field (matches `input[name="field-keywords"]`). -/
def namedSearchInput : PageElement :=
  { plainTextInput with nameAttr := some "field-keywords" }

/-- A page on which a generic text input precedes the named search field in
document order. -/
def pageTextBeforeNamed : Page :=
  { url := "u", titleVal := "t", elements := [plainTextInput, namedSearchInput],
    navFails := false, clickSelectorOk := fun _ => false,
    waitFinds := fun _ => false, raisesOnInspect := false }

/-- Modelled from the spec: the selection rule claim C4 describes for the
`type` action — search in priority order for a named search field, then an
input whose id contains "search", then a generic search input, then a
generic text input, and use the first match found in that priority order.
(The code instead issues the four patterns as one combined query, answered
by the first match in document order.) -/
def typeTargetSpecPriority (els : List PageElement) : Option (Nat × PageElement) :=
  match firstMatchIdx els
      (fun e => e.tag == "input" && e.nameAttr == some "field-keywords") 0 with
  | some r => some r
  | none =>
    match firstMatchIdx els
        (fun e => e.tag == "input" && containsSeq "search".data (e.idAttr.getD "").data) 0 with
    | some r => some r
    | none =>
      match firstMatchIdx els
          (fun e => e.tag == "input" && e.typeAttr == some "search") 0 with
      | some r => some r
      | none => firstMatchIdx els
          (fun e => e.tag == "input" && e.typeAttr == some "text") 0

/-- C4 counterexample: on a page where a generic text input (document
position 0) precedes a named search field (position 1), the executor fills
position 0 — the first match in document order of the combined query —
while the claim's priority order would select the named search field at
position 1.  The selection is not made in the claimed priority order. -/
theorem type_priority_order_counterexample :
    (execute_action pageTextBeforeNamed
        { action := "type", target := "input[name='q']", value := "v",
          reasoning := "" }).filledIdx = some 0 ∧
    (typeTargetSpecPriority pageTextBeforeNamed.elements).map Prod.fst = some 1 :=
  ⟨rfl, rfl⟩

/-- C4 (amended): for every `type` action the executor ignores the
planner-supplied target selector entirely (the outcome is invariant in
`target`) and selects the input field with one combined query — a named
search field, an input whose id contains "search", a generic search input,
or a generic text input — taking the first match in document order among
those patterns (not in pattern-priority order); it fills that field with
the action's value and submits via a simulated Enter keypress, and reports
failure if no matching field exists or if the fill/submit step throws. -/
theorem type_fills_first_document_match (page : Page) (a : PlannedAction)
    (ha : a.action = "type") :
    (∀ t, execute_action page { a with target := t } = execute_action page a) ∧
    (firstMatchIdx page.elements matchesTypeQuery 0 = none →
      (execute_action page a).success = false ∧
      (execute_action page a).filledIdx = none ∧
      (execute_action page a).pressedEnter = false) ∧
    (∀ i e, firstMatchIdx page.elements matchesTypeQuery 0 = some (i, e) →
      (e.interactFails = false →
        execute_action page a =
          { success := true, filledIdx := some i, filledValue := some a.value,
            pressedEnter := true }) ∧
      (e.interactFails = true →
        (execute_action page a).success = false ∧
        (execute_action page a).filledIdx = none)) := by
  refine ⟨?_, ?_, ?_⟩
  · intro t; simp [execute_action, ha]
  · intro h; simp [execute_action, ha, h]
  · intro i e h
    constructor
    · intro hf; simp [execute_action, ha, h, hf]
    · intro hf; simp [execute_action, ha, h, hf]

/-- Witness for C4's amended theorem: the document-order first match (the
generic text input at position 0) is filled with the action's value. -/
theorem type_fills_first_document_match_witness :
    execute_action pageTextBeforeNamed
        { action := "type", target := "ignored", value := "v", reasoning := "" } =
      { success := true, filledIdx := some 0, filledValue := some "v",
        pressedEnter := true } :=
  ((type_fills_first_document_match pageTextBeforeNamed
      { action := "type", target := "ignored", value := "v", reasoning := "" }
      rfl).2.2 0 plainTextInput rfl).1 rfl

/-! ### Lemmas about the Python string primitives, for claim C6 -/

/-- The backtick character. -/
def bq : Char := Char.ofNat 96

theorem bt_eq : "```".data = [bq, bq, bq] := by decide

theorem js_eq : "```json".data = [bq, bq, bq, 'j', 's', 'o', 'n'] := by decide

theorem startsWithSeq_append_self (p t : List Char) :
    startsWithSeq (p ++ t) p = true := by
  induction p with
  | nil => cases t <;> rfl
  | cons c p ih => simp [startsWithSeq, ih]

theorem containsSeq_of_startsWithSeq (sep : List Char) (hsep : sep ≠ []) :
    ∀ s, startsWithSeq s sep = true → containsSeq sep s = true := by
  intro s hs
  cases s with
  | nil => cases sep with
    | nil => exact absurd rfl hsep
    | cons c p => simp [startsWithSeq] at hs
  | cons c rest => simp [containsSeq, hs]

theorem containsSeq_append_no_head (hd : Char) (sep' : List Char) :
    ∀ s tail, (∀ c ∈ s, c ≠ hd) →
      containsSeq (hd :: sep') (s ++ tail) = containsSeq (hd :: sep') tail := by
  intro s
  induction s with
  | nil => intro tail _; rfl
  | cons c rest ih =>
    intro tail hs
    have hc : (c == hd) = false := by
      simp only [beq_eq_false_iff_ne, ne_eq]
      exact hs c (List.mem_cons_self c rest)
    simp only [List.cons_append, containsSeq, startsWithSeq, hc, Bool.false_and,
      Bool.false_or]
    exact ih tail (fun x hx => hs x (List.mem_cons_of_mem c hx))

theorem containsSeq_false_of_no_head (hd : Char) (sep' : List Char)
    (s : List Char) (hs : ∀ c ∈ s, c ≠ hd) :
    containsSeq (hd :: sep') s = false := by
  have := containsSeq_append_no_head hd sep' s [] hs
  simpa [containsSeq] using this

theorem pySplitGo_fuel (sep : List Char) (hsep : sep ≠ []) :
    ∀ f1 s acc f2, s.length ≤ f1 → s.length ≤ f2 →
      pySplitGo sep f1 s acc = pySplitGo sep f2 s acc := by
  intro f1
  induction f1 with
  | zero =>
    intro s acc f2 h1 _
    have : s = [] := List.eq_nil_of_length_eq_zero (Nat.le_zero.mp h1)
    subst this
    cases f2 <;> simp [pySplitGo]
  | succ n ih =>
    intro s acc f2 h1 h2
    cases s with
    | nil => cases f2 <;> simp [pySplitGo]
    | cons c rest =>
      cases f2 with
      | zero => simp at h2
      | succ m =>
        simp only [pySplitGo]
        split
        · rename_i hsw
          have hlen : ((c :: rest).drop sep.length).length ≤ n := by
            have : 1 ≤ sep.length := by
              cases sep with
              | nil => exact absurd rfl hsep
              | cons _ _ => simp
            simp only [List.length_drop, List.length_cons]
            simp only [List.length_cons] at h1
            omega
          have hlen2 : ((c :: rest).drop sep.length).length ≤ m := by
            have : 1 ≤ sep.length := by
              cases sep with
              | nil => exact absurd rfl hsep
              | cons _ _ => simp
            simp only [List.length_drop, List.length_cons]
            simp only [List.length_cons] at h2
            omega
          rw [ih _ _ m hlen hlen2]
        · have hlen : rest.length ≤ n := by
            simp only [List.length_cons] at h1; omega
          have hlen2 : rest.length ≤ m := by
            simp only [List.length_cons] at h2; omega
          rw [ih _ _ m hlen hlen2]

theorem pySplitGo_no_occurrence (sep : List Char) :
    ∀ s acc fuel, s.length ≤ fuel → containsSeq sep s = false →
      pySplitGo sep fuel s acc = [acc.reverse ++ s] := by
  intro s
  induction s with
  | nil => intro acc fuel _ _; cases fuel <;> simp [pySplitGo]
  | cons c rest ih =>
    intro acc fuel hlen hocc
    cases fuel with
    | zero => simp at hlen
    | succ n =>
      simp only [containsSeq, Bool.or_eq_false_iff] at hocc
      simp only [pySplitGo, hocc.1, Bool.false_eq_true, if_false]
      have : rest.length ≤ n := by simp only [List.length_cons] at hlen; omega
      rw [ih (c :: acc) n this hocc.2]
      simp

theorem pySplitGo_skip_prefix (hd : Char) (sep' : List Char) :
    ∀ p s acc fuel, (∀ c ∈ p, c ≠ hd) →
      (p ++ s).length ≤ fuel →
      startsWithSeq s (hd :: sep') = true →
      pySplitGo (hd :: sep') fuel (p ++ s) acc =
        (acc.reverse ++ p) ::
          pySplitGo (hd :: sep') (s.drop (hd :: sep').length).length
            (s.drop (hd :: sep').length) [] := by
  intro p
  induction p with
  | nil =>
    intro s acc fuel _ hlen hsw
    cases s with
    | nil => simp [startsWithSeq] at hsw
    | cons c rest =>
      cases fuel with
      | zero => simp at hlen
      | succ n =>
        simp only [List.nil_append] at hlen ⊢
        simp only [pySplitGo, hsw, if_true]
        have hle : ((c :: rest).drop (hd :: sep').length).length ≤ n := by
          simp only [List.length_drop, List.length_cons]
          simp only [List.length_cons] at hlen
          omega
        rw [pySplitGo_fuel (hd :: sep') (by simp) n _ []
          ((c :: rest).drop (hd :: sep').length).length hle (Nat.le_refl _)]
        simp
  | cons c p ih =>
    intro s acc fuel hp hlen hsw
    cases fuel with
    | zero => simp [List.length_cons] at hlen
    | succ n =>
      have hc : (c == hd) = false := by
        simp only [beq_eq_false_iff_ne, ne_eq]
        exact hp c (List.mem_cons_self c p)
      simp only [List.cons_append, pySplitGo, startsWithSeq, hc, Bool.false_and,
        Bool.false_eq_true, if_false]
      have hlen2 : (p ++ s).length ≤ n := by
        simp only [List.cons_append, List.length_cons] at hlen
        omega
      rw [ih s (c :: acc) n (fun x hx => hp x (List.mem_cons_of_mem c hx)) hlen2 hsw]
      simp

theorem pyStrip_cons_space (c : Char) (hc : isPySpace c = true) (s : List Char) :
    pyStrip (c :: s) = pyStrip s := by
  simp [pyStrip, List.dropWhile_cons, hc]

theorem pyStrip_append_space (s : List Char) (c : Char) (hc : isPySpace c = true) :
    pyStrip (s ++ [c]) = pyStrip s := by
  simp only [pyStrip, List.dropWhile_append]
  by_cases h : (s.dropWhile isPySpace).isEmpty
  · have he : s.dropWhile isPySpace = [] := by
      cases hd : s.dropWhile isPySpace with
      | nil => rfl
      | cons x l => rw [hd] at h; simp at h
    simp [he, List.dropWhile_cons, hc]
  · simp only [h, if_false, Bool.false_eq_true, List.reverse_append,
      List.reverse_cons, List.reverse_nil, List.nil_append, List.singleton_append,
      List.dropWhile_cons, hc, if_true]

theorem mem_pyStrip (s : List Char) (c : Char) (h : c ∈ pyStrip s) : c ∈ s := by
  simp only [pyStrip, List.mem_reverse] at h
  have h1 := (List.dropWhile_sublist (l := (s.dropWhile isPySpace).reverse) isPySpace).subset h
  rw [List.mem_reverse] at h1
  exact (List.dropWhile_sublist (l := s) isPySpace).subset h1

theorem pyStrip_eq_self (a : Char) (mid : List Char) (b : Char)
    (ha : isPySpace a = false) (hb : isPySpace b = false) :
    pyStrip (a :: (mid ++ [b])) = a :: (mid ++ [b]) := by
  simp only [pyStrip, List.dropWhile_cons, ha, Bool.false_eq_true, if_false,
    List.reverse_cons, List.reverse_append, List.reverse_nil, List.nil_append,
    List.singleton_append, hb]
  simp [hb, List.append_assoc]

theorem pyStrip_pad (R : List Char) :
    pyStrip ('\n' :: (R ++ ['\n'])) = pyStrip R := by
  rw [pyStrip_cons_space '\n' (by decide), pyStrip_append_space R '\n' (by decide)]

/-- Wrapping a provider response in a fenced code block with the `json`
language tag. -/
def fenceJsonWrap (R : List Char) : List Char :=
  "```json\n".data ++ R ++ "\n```".data

/-- Wrapping a provider response in a plain fenced code block. -/
def fencePlainWrap (R : List Char) : List Char :=
  "```\n".data ++ R ++ "\n```".data

theorem extract_noFence (R : List Char) (hR : ∀ c ∈ R, c ≠ bq) :
    extract_response R = pyStrip R := by
  have hstripfree : ∀ c ∈ pyStrip R, c ≠ bq :=
    fun c hc => hR c (mem_pyStrip R c hc)
  have h1 : containsSeq "```json".data (pyStrip R) = false := by
    rw [js_eq]
    exact containsSeq_false_of_no_head bq [bq, bq, 'j', 's', 'o', 'n'] _ hstripfree
  have h2 : containsSeq "```".data (pyStrip R) = false := by
    rw [bt_eq]
    exact containsSeq_false_of_no_head bq [bq, bq] _ hstripfree
  simp [extract_response, h1, h2]

theorem extract_fenceJson (R : List Char) (hR : ∀ c ∈ R, c ≠ bq) :
    extract_response (fenceJsonWrap R) = pyStrip R := by
  have hfree : ∀ c ∈ ('\n' :: (R ++ ['\n'])), c ≠ bq := by
    intro c hc
    rcases List.mem_cons.mp hc with h | h
    · subst h; decide
    · rcases List.mem_append.mp h with h | h
      · exact hR c h
      · simp only [List.mem_singleton] at h; subst h; decide
  have hW : fenceJsonWrap R =
      [bq, bq, bq, 'j', 's', 'o', 'n'] ++ ('\n' :: (R ++ ('\n' :: [bq, bq, bq]))) := by
    have h1 : "```json\n".data = [bq, bq, bq, 'j', 's', 'o', 'n', '\n'] := by decide
    have h2 : "\n```".data = ['\n', bq, bq, bq] := by decide
    rw [fenceJsonWrap, h1, h2]
    simp only [List.cons_append, List.nil_append, List.append_assoc]
  have hTshape : ('\n' :: (R ++ ('\n' :: [bq, bq, bq]))) =
      ('\n' :: (R ++ ['\n'])) ++ [bq, bq, bq] := by
    simp [List.append_assoc]
  have hshape : [bq, bq, bq, 'j', 's', 'o', 'n'] ++ ('\n' :: (R ++ ('\n' :: [bq, bq, bq]))) =
      bq :: (([bq, bq, 'j', 's', 'o', 'n', '\n'] ++ (R ++ ['\n', bq, bq])) ++ [bq]) := by
    simp [List.append_assoc]
  have hstrip : pyStrip (fenceJsonWrap R) = fenceJsonWrap R := by
    rw [hW, hshape]
    exact pyStrip_eq_self bq _ bq (by decide) (by decide)
  have hcont : containsSeq "```json".data (fenceJsonWrap R) = true := by
    rw [js_eq, hW]
    exact containsSeq_of_startsWithSeq _ (by simp) _ (startsWithSeq_append_self _ _)
  have hnooccT : containsSeq [bq, bq, bq, 'j', 's', 'o', 'n']
      ('\n' :: (R ++ ('\n' :: [bq, bq, bq]))) = false := by
    rw [hTshape, containsSeq_append_no_head bq [bq, bq, 'j', 's', 'o', 'n'] _ _ hfree]
    decide
  have hsplit1 : pySplit "```json".data (fenceJsonWrap R) =
      [[], '\n' :: (R ++ ('\n' :: [bq, bq, bq]))] := by
    rw [js_eq, hW]
    have h := pySplitGo_skip_prefix bq [bq, bq, 'j', 's', 'o', 'n'] []
      ([bq, bq, bq, 'j', 's', 'o', 'n'] ++ ('\n' :: (R ++ ('\n' :: [bq, bq, bq])))) []
      (([bq, bq, bq, 'j', 's', 'o', 'n'] ++ ('\n' :: (R ++ ('\n' :: [bq, bq, bq])))).length)
      (by simp) (by simp) (startsWithSeq_append_self _ _)
    simp only [List.nil_append, List.reverse_nil, List.drop_left] at h
    rw [pySplit, if_neg (by simp), h,
      pySplitGo_no_occurrence _ _ [] _ (Nat.le_refl _) hnooccT]
    simp
  have hsplit2 : pySplit "```".data ('\n' :: (R ++ ('\n' :: [bq, bq, bq]))) =
      ['\n' :: (R ++ ['\n']), []] := by
    rw [bt_eq]
    have h := pySplitGo_skip_prefix bq [bq, bq] ('\n' :: (R ++ ['\n'])) [bq, bq, bq] []
      ((('\n' :: (R ++ ['\n'])) ++ [bq, bq, bq]).length)
      hfree (Nat.le_refl _) (by decide)
    rw [pySplit, if_neg (by simp), hTshape, h]
    simp [pySplitGo]
  have hpad : pyStrip ('\n' :: (R ++ ['\n'])) = pyStrip R := pyStrip_pad R
  simp only [extract_response, hstrip, hcont, if_true, hsplit1,
    List.getD_cons_succ, List.getD_cons_zero, hsplit2, hpad]

theorem extract_fencePlain (R : List Char) (hR : ∀ c ∈ R, c ≠ bq) :
    extract_response (fencePlainWrap R) = pyStrip R := by
  have hfree : ∀ c ∈ ('\n' :: (R ++ ['\n'])), c ≠ bq := by
    intro c hc
    rcases List.mem_cons.mp hc with h | h
    · subst h; decide
    · rcases List.mem_append.mp h with h | h
      · exact hR c h
      · simp only [List.mem_singleton] at h; subst h; decide
  have hW : fencePlainWrap R =
      [bq, bq, bq] ++ ('\n' :: (R ++ ('\n' :: [bq, bq, bq]))) := by
    have h1 : "```\n".data = [bq, bq, bq, '\n'] := by decide
    have h2 : "\n```".data = ['\n', bq, bq, bq] := by decide
    rw [fencePlainWrap, h1, h2]
    simp only [List.cons_append, List.nil_append, List.append_assoc]
  have hTshape : ('\n' :: (R ++ ('\n' :: [bq, bq, bq]))) =
      ('\n' :: (R ++ ['\n'])) ++ [bq, bq, bq] := by
    simp [List.append_assoc]
  have hshape : [bq, bq, bq] ++ ('\n' :: (R ++ ('\n' :: [bq, bq, bq]))) =
      bq :: (([bq, bq, '\n'] ++ (R ++ ['\n', bq, bq])) ++ [bq]) := by
    simp [List.append_assoc]
  have hstrip : pyStrip (fencePlainWrap R) = fencePlainWrap R := by
    rw [hW, hshape]
    exact pyStrip_eq_self bq _ bq (by decide) (by decide)
  have hnj : (('\n' : Char) == 'j') = false := by decide
  have hnb : (('\n' : Char) == bq) = false := by decide
  have hrest : containsSeq [bq, bq, bq, 'j', 's', 'o', 'n']
      (R ++ ('\n' :: [bq, bq, bq])) = false := by
    rw [containsSeq_append_no_head bq [bq, bq, 'j', 's', 'o', 'n'] R _ hR]
    decide
  have hcontJs : containsSeq "```json".data (fencePlainWrap R) = false := by
    rw [js_eq, hW]
    simp only [List.cons_append, containsSeq, startsWithSeq, hnj, hnb, hrest,
      beq_self_eq_true, Bool.true_and, Bool.false_and, Bool.and_false,
      Bool.false_or, Bool.or_false]
  have hcontBt : containsSeq "```".data (fencePlainWrap R) = true := by
    rw [bt_eq, hW]
    exact containsSeq_of_startsWithSeq _ (by simp) _ (startsWithSeq_append_self _ _)
  have hsplitA : pySplit "```".data (fencePlainWrap R) =
      [[], '\n' :: (R ++ ['\n']), []] := by
    rw [bt_eq, hW]
    have h := pySplitGo_skip_prefix bq [bq, bq] []
      ([bq, bq, bq] ++ ('\n' :: (R ++ ('\n' :: [bq, bq, bq])))) []
      (([bq, bq, bq] ++ ('\n' :: (R ++ ('\n' :: [bq, bq, bq])))).length)
      (by simp) (by simp) (startsWithSeq_append_self _ _)
    simp only [List.nil_append, List.reverse_nil, List.drop_left] at h
    have h2 := pySplitGo_skip_prefix bq [bq, bq] ('\n' :: (R ++ ['\n'])) [bq, bq, bq] []
      ((('\n' :: (R ++ ['\n'])) ++ [bq, bq, bq]).length)
      hfree (Nat.le_refl _) (by decide)
    have hdrop3 : List.drop ([bq, bq, bq] : List Char).length ([bq, bq, bq] : List Char) =
        ([] : List Char) := by decide
    simp only [hdrop3, List.length_nil, List.reverse_nil, List.nil_append] at h2
    rw [pySplit, if_neg (by simp), h, hTshape, h2]
    simp [pySplitGo]
  have hsplitB : pySplit "```".data ('\n' :: (R ++ ['\n'])) =
      ['\n' :: (R ++ ['\n'])] := by
    rw [bt_eq, pySplit, if_neg (by simp),
      pySplitGo_no_occurrence _ _ [] _ (Nat.le_refl _)
        (containsSeq_false_of_no_head bq [bq, bq] _ hfree)]
    simp
  have hpad : pyStrip ('\n' :: (R ++ ['\n'])) = pyStrip R := pyStrip_pad R
  simp only [extract_response, hstrip, hcontJs, Bool.false_eq_true, if_false,
    hcontBt, if_true, hsplitA, List.getD_cons_succ, List.getD_cons_zero,
    hsplitB, hpad]

/-- A provider response that is already a fenced JSON block — the format the
prompt's examples invite the provider to produce. -/
def alreadyFencedResponse : List Char := "```json\n\x7b\"action\": \"done\"\x7d\n```".data

/-- C6 counterexample: the already-fenced response parses (through the
planner's fence-stripping and JSON parse) to the `done` action, but the same
response wrapped in one more fenced code block parses to nothing: the
extraction takes the text between the first `"```json"` and the next
`"```"`, which for the double-fenced text is empty.  Parsing is therefore
not invariant under fencing for every response that parses. -/
theorem fence_wrapping_not_invariant :
    parse_planned (extract_response alreadyFencedResponse) =
      some { action := "done", target := "", value := "", reasoning := "" } ∧
    parse_planned (extract_response (fenceJsonWrap alreadyFencedResponse)) = none := by
  constructor
  · decide
  · decide

/-- C6 (amended): for every provider response text in which no backtick
character occurs, wrapping the response in a fenced code block — with or
without the `json` language tag — leaves the extracted text, and hence the
parsed PlannedAction, unchanged.  (Responses that already contain fence
backticks are exempt: see `fence_wrapping_not_invariant`.) -/
theorem fence_stripping_invariant (R : List Char) (hR : ∀ c ∈ R, c ≠ bq) :
    extract_response (fenceJsonWrap R) = extract_response R ∧
    extract_response (fencePlainWrap R) = extract_response R ∧
    parse_planned (extract_response (fenceJsonWrap R)) =
      parse_planned (extract_response R) ∧
    parse_planned (extract_response (fencePlainWrap R)) =
      parse_planned (extract_response R) := by
  have h1 := extract_fenceJson R hR
  have h2 := extract_fencePlain R hR
  have h0 := extract_noFence R hR
  exact ⟨h1.trans h0.symm, h2.trans h0.symm, by rw [h1, h0], by rw [h2, h0]⟩

/-- Witness for C6's amended theorem on a concrete backtick-free response. -/
theorem fence_stripping_invariant_witness :
    extract_response (fenceJsonWrap "\x7b\"action\": \"done\"\x7d".data) =
      extract_response "\x7b\"action\": \"done\"\x7d".data ∧
    extract_response (fencePlainWrap "\x7b\"action\": \"done\"\x7d".data) =
      extract_response "\x7b\"action\": \"done\"\x7d".data :=
  ⟨(fence_stripping_invariant "\x7b\"action\": \"done\"\x7d".data (by decide)).1,
   (fence_stripping_invariant "\x7b\"action\": \"done\"\x7d".data (by decide)).2.1⟩
